import Mathlib

/-!
Shallow embedding of `generate_schedule.py` (nikki-schedule), the one-shot
pipeline that fetches ICS calendar feeds and writes `schedule.json`.

Modelling conventions:
* A naive local date-time is measured in minutes since 1970-01-01T00:00
  (the civil Gregorian calendar, as Python's `datetime`/`date` arithmetic).
* A Python *aware* datetime is a pair (wall-clock minutes, UTC offset in
  minutes); comparison of aware datetimes compares the absolute (UTC) instant,
  exactly as Python does.
* A `pytz` timezone object is a pair of offset functions: the offset chosen by
  `tz.localize` for a naive wall-clock time, and the offset holding at a given
  UTC instant (used by `astimezone`).
* Network fetching (`requests.get` + `Calendar.from_ical`) is an oracle
  parameter `fetch : String → Except String (List Component)`: `.error exc`
  models any exception raised while fetching/decoding a URL, `.ok comps` the
  list of walked calendar components.
* `date.today()` and `datetime.now` are oracle parameters (`todayDays`,
  `nowUtc`): the process-local current date in days since epoch and the
  current UTC instant in minutes.
* The source serialises each interval via `datetime.isoformat()`; `isoformat`
  is injective on aware datetimes, so the embedding keeps the aware instants
  themselves in `BusyInterval` instead of their string rendering.
-/

/-- Python truthiness of a string: non-empty. -/
def pyTruthy (s : String) : Bool := s ≠ ""

/-- Drop leading and trailing whitespace from a character list. -/
def stripChars (l : List Char) : List Char :=
  ((l.dropWhile Char.isWhitespace).reverse.dropWhile Char.isWhitespace).reverse

/-- Models Python `str.strip()`: remove leading and trailing whitespace. -/
def pyStrip (s : String) : String := ⟨stripChars s.data⟩

/-- Splits a character list at every comma, keeping empty pieces. -/
def splitCommaChars (acc : List Char) : List Char → List (List Char)
  | [] => [acc.reverse]
  | c :: cs =>
    if c = ',' then acc.reverse :: splitCommaChars [] cs
    else splitCommaChars (c :: acc) cs

/-- Models Python `str.split(",")`: the empty string yields `[""]`, and
adjacent commas yield empty pieces. -/
def pySplitComma (s : String) : List String :=
  (splitCommaChars [] s.data).map fun l => ⟨l⟩

/-- Models Python `str.upper()`: uppercase every character. -/
def pyUpper (s : String) : String := ⟨s.data.map Char.toUpper⟩

/-- Days since 1970-01-01 of a Gregorian date (Howard Hinnant's civil-days
algorithm, here with floor division, which `Int./` provides for positive
divisors). Models Python `datetime.date` arithmetic. -/
def dateToDays (y m d : Int) : Int :=
  let y2 := if m ≤ 2 then y - 1 else y
  let era := y2 / 400
  let yoe := y2 - era * 400
  let mp := (m + 9) % 12
  let doy := (153 * mp + 2) / 5 + d - 1
  let doe := yoe * 365 + yoe / 4 - yoe / 100 + doy
  era * 146097 + doe - 719468

/-- Python `date.weekday()` on a day number: Monday = 0 … Sunday = 6
(1970-01-01 was a Thursday, weekday 3). -/
def pyWeekday (days : Int) : Int := (days + 3) % 7

/-- Python `today - timedelta(days=today.weekday())`: the Monday of the calendar week
containing `days` (source line 41). -/
def mondayOf (days : Int) : Int := days - pyWeekday days

/-- An aware datetime: local wall-clock minutes since epoch together with the
UTC offset (in minutes) its tzinfo reports. -/
structure Aware where
  wall : Int
  offset : Int
deriving DecidableEq, Repr

/-- The absolute (UTC) instant of an aware datetime, in minutes since epoch.
Python compares aware datetimes by this value. -/
def Aware.utc (a : Aware) : Int := a.wall - a.offset

/-- A pytz timezone object, reduced to its two offset maps. -/
structure Tz where
  /-- UTC offset (minutes) that `tz.localize` attaches to a naive wall time. -/
  offsetOfLocal : Int → Int
  /-- UTC offset (minutes) in force at a given UTC instant. -/
  offsetOfUtc : Int → Int

/-- Model of `tz.localize(naive)`: attach the timezone's offset to a naive wall time. -/
def Tz.localize (tz : Tz) (wall : Int) : Aware :=
  ⟨wall, tz.offsetOfLocal wall⟩

/-- Model of `dt.astimezone(tz)`: convert an aware datetime to the timezone, preserving
the absolute instant. -/
def Tz.astimezone (tz : Tz) (a : Aware) : Aware :=
  ⟨a.utc + tz.offsetOfUtc a.utc, tz.offsetOfUtc a.utc⟩

/-- Model of `datetime.now(tz)` at UTC instant `nowUtc` (minutes since epoch). -/
def Tz.nowIn (tz : Tz) (nowUtc : Int) : Aware :=
  ⟨nowUtc + tz.offsetOfUtc nowUtc, tz.offsetOfUtc nowUtc⟩

/-- Model of `pytz.UTC`: offset 0 everywhere. -/
def utcTz : Tz := ⟨fun _ => 0, fun _ => 0⟩

/-- Models the pytz `America/New_York` zone during 2024 (IANA tz database):
EDT = UTC−4 (−240 minutes) between 2024-03-10T02:00 and 2024-11-03T02:00,
EST = UTC−5 (−300 minutes) otherwise. Only 2024 instants are used in this
development. -/
def nyTz : Tz :=
  { offsetOfLocal := fun wall =>
      if dateToDays 2024 3 10 * 1440 + 120 ≤ wall ∧
          wall < dateToDays 2024 11 3 * 1440 + 120 then -240 else -300
    offsetOfUtc := fun u =>
      if dateToDays 2024 3 10 * 1440 + 120 + 300 ≤ u ∧
          u < dateToDays 2024 11 3 * 1440 + 120 + 240 then -240 else -300 }

/-- Models the `pytz.timezone` registry (source line 125), restricted to the
zone names this development mentions; every other name raises
`UnknownTimeZoneError`, i.e. maps to `none`. -/
def pytzTable : String → Option Tz
  | "UTC" => some utcTz
  | "America/New_York" => some nyTz
  | _ => none

/-- A raw `DTSTART`/`DTEND` value as decoded by `icalendar`: either a
date-only value (all-day), or a datetime given by its date, minute of day and
optional tzinfo (a fixed UTC offset when aware, `none` when naive). -/
inductive RawTime where
  | dateOnly (y m d : Int)
  | dt (y m d minute : Int) (tzo : Option Int)
deriving DecidableEq, Repr

/-- The `.year`, `.month`, `.day` attributes of a raw value. -/
def RawTime.ymd : RawTime → Int × Int × Int
  | .dateOnly y m d => (y, m, d)
  | .dt y m d _ _ => (y, m, d)

/-- Wall-clock minutes since epoch of a datetime raw value (unused for
date-only values). -/
def RawTime.wallMinutes : RawTime → Int
  | .dateOnly y m d => dateToDays y m d * 1440
  | .dt y m d minute _ => dateToDays y m d * 1440 + minute

/-- Midnight of a Gregorian date, in wall minutes since epoch. -/
def midnightWall (y m d : Int) : Int := dateToDays y m d * 1440

/-- Normalisation of the raw (start, end) pair to aware datetimes, source
lines 84-96. Date-only starts take the all-day branch: local midnight of the
start date and of the end value's date. Otherwise naive values are localized,
aware values keep their offset, and both are converted with `astimezone`.
`none` models the `AttributeError` the source raises when the start is a
datetime but the end is date-only (`date` has no `.tzinfo`). -/
def normalizePair (tz : Tz) (rawStart rawEnd : RawTime) : Option (Aware × Aware) :=
  match rawStart with
  | .dateOnly y m d =>
    let (ey, em, ed) := rawEnd.ymd
    some (tz.localize (midnightWall y m d), tz.localize (midnightWall ey em ed))
  | .dt _ _ _ _ tzo =>
    match rawEnd with
    | .dateOnly _ _ _ => none
    | .dt _ _ _ _ tzo2 =>
      let s :=
        match tzo with
        | none => tz.localize rawStart.wallMinutes
        | some o => Aware.mk rawStart.wallMinutes o
      let e :=
        match tzo2 with
        | none => tz.localize rawEnd.wallMinutes
        | some o => Aware.mk rawEnd.wallMinutes o
      some (tz.astimezone s, tz.astimezone e)

/-- A walked calendar component as the source reads it: its name test, the
optional `DTSTART`/`DTEND` values, and the optional `TRANSP` and
`X-MICROSOFT-CDO-BUSYSTATUS` text properties. -/
structure Component where
  isEvent : Bool
  dtstart : Option RawTime
  dtend : Option RawTime
  transp : Option String
  busystatus : Option String
deriving Repr

/-- Source line 72: `transp and str(transp).upper() == "TRANSPARENT"`. -/
def transpMatches (c : Component) : Bool :=
  match c.transp with
  | some t => pyTruthy t && pyUpper t == "TRANSPARENT"
  | none => false

/-- Source line 77: `busystatus and str(busystatus).upper() == "FREE"`. -/
def busyMatches (c : Component) : Bool :=
  match c.busystatus with
  | some t => pyTruthy t && pyUpper t == "FREE"
  | none => false

/-- One entry of the `events` list: aware start and end instants and the
summary text (the source stores their `isoformat()` strings). -/
structure BusyInterval where
  start : Aware
  «end» : Aware
  summary : String
deriving DecidableEq, Repr

/-- Outcome of the per-component body of the loop at source lines 61-109:
either the component is skipped, or one dict is appended, or an uncaught
exception escapes the loop. -/
inductive StepRes where
  | skip
  | emit (b : BusyInterval)
  | err
deriving DecidableEq, Repr

/-- The loop body of `parse_ics_url` for one component (source lines 61-109):
skip non-events, skip when `DTSTART` is missing, skip transparent and
Microsoft-"free" events, normalise, drop intervals outside the fetch range
(`start >= range_end or end <= range_start`), else emit with summary
`"Busy"`. `DTEND` defaults to `DTSTART` (line 66). -/
def processComponent (tz : Tz) (range_start range_end : Aware)
    (c : Component) : StepRes :=
  if c.isEvent = false then .skip
  else
    match c.dtstart with
    | none => .skip
    | some rawS =>
      if transpMatches c then .skip
      else if busyMatches c then .skip
      else
        match normalizePair tz rawS (c.dtend.getD rawS) with
        | none => .err
        | some (s, e) =>
          if s.utc ≥ range_end.utc ∨ e.utc ≤ range_start.utc then .skip
          else .emit ⟨s, e, "Busy"⟩

/-- The component loop of `parse_ics_url`, accumulating emitted intervals in
order; `.error ()` models an exception escaping the loop. -/
def collectEvents (tz : Tz) (range_start range_end : Aware) :
    List Component → Except Unit (List BusyInterval)
  | [] => .ok []
  | c :: cs =>
    match processComponent tz range_start range_end c with
    | .skip => collectEvents tz range_start range_end cs
    | .emit b =>
      match collectEvents tz range_start range_end cs with
      | .ok rest => .ok (b :: rest)
      | .error e => .error e
    | .err => .error ()

/-- Function `parse_ics_url` (source lines 47-111): the fetch result is the oracle's
answer for the URL. On any fetch/decode exception the function logs one
stderr line containing the URL truncated to 70 characters and returns the
empty list; otherwise it runs the component loop. Result is paired with the
list of stderr lines printed. -/
def parse_ics_url (url : String) (fetched : Except String (List Component))
    (range_start range_end : Aware) (local_tz : Tz) :
    Except Unit (List BusyInterval) × List String :=
  match fetched with
  | .error exc =>
    (.ok [], ["  ⚠️  Could not fetch " ++ url.take 70 ++ ": " ++ exc])
  | .ok comps => (collectEvents local_tz range_start range_end comps, [])

/-- Function `get_fetch_range` (source lines 37-44): local midnight of the Monday of
the current week, localized; the end is `range_start + timedelta(weeks=5)`,
which Python computes on the wall clock keeping the same tzinfo/offset. -/
def get_fetch_range (tz : Tz) (todayDays : Int) : Aware × Aware :=
  let range_start := tz.localize (mondayOf todayDays * 1440)
  (range_start, ⟨range_start.wall + 35 * 1440, range_start.offset⟩)

/-- Timezone resolution of `main` (source lines 123-128): default the name to
"UTC", then look it up; on `UnknownTimeZoneError` print a warning and use
`pytz.UTC`, keeping `tz_name` unchanged. Returns (tz_name, tz object,
whether the warning was printed). -/
def resolveTz (cfgTz : Option String) : String × Tz × Bool :=
  let tz_name := cfgTz.getD "UTC"
  match pytzTable tz_name with
  | some tz => (tz_name, tz, false)
  | none => (tz_name, utcTz, true)

/-- Feed-list resolution of `main` (source lines 133-140): if `ICS_URLS`
is non-empty after stripping, split it on commas, strip each entry and keep
the non-empty ones; otherwise take the config list, keeping entries that are
truthy and not the placeholder. -/
def resolveUrls (envUrls : String) (cfgUrls : Option (List String)) :
    List String :=
  if pyStrip envUrls ≠ "" then
    ((pySplitComma envUrls).filter (fun u => pyStrip u ≠ "")).map pyStrip
  else
    (cfgUrls.getD []).filter (fun u => pyTruthy u && u ≠ "YOUR_ICS_URL_HERE")

/-- The `config.json` object: each key the source reads, optional. -/
structure Config where
  timezone : Option String
  ownerName : Option String
  weeklyProjectHours : Option Int
  workdayStart : Option Int
  workdayEnd : Option Int
  icsUrls : Option (List String)

/-- The `output` dict written to `schedule.json` (source lines 151-160). -/
structure ScheduleOutput where
  lastUpdated : Aware
  timezone : String
  ownerName : String
  weeklyProjectHours : Int
  workdayStart : Int
  workdayEnd : Int
  configured : Bool
  events : List BusyInterval
deriving DecidableEq, Repr

/-- The feed loop of `main` (source lines 145-149): each URL is fetched and
parsed with the one shared window and timezone, and the per-feed results are
concatenated in feed-list order. An exception escaping `parse_ics_url`
aborts the run (`.error`). -/
def fetchAll (fetch : String → Except String (List Component))
    (range_start range_end : Aware) (tz : Tz) :
    List String → Except Unit (List BusyInterval)
  | [] => .ok []
  | url :: rest =>
    match (parse_ics_url url (fetch url) range_start range_end tz).1 with
    | .error e => .error e
    | .ok evts =>
      match fetchAll fetch range_start range_end tz rest with
      | .error e => .error e
      | .ok more => .ok (evts ++ more)

/-- Function `main` after the config file has been read (source lines 123-164):
resolve the timezone and the feed list, compute the fetch window once, run
every feed against it, and build the output object. `fetch` is the network
oracle, `todayDays` the process-local date, `nowUtc` the current instant. -/
def runMain (cfg : Config) (envUrls : String)
    (fetch : String → Except String (List Component))
    (todayDays nowUtc : Int) : Except Unit ScheduleOutput :=
  let r := resolveTz cfg.timezone
  let tz_name := r.1
  let local_tz := r.2.1
  let ics_urls := resolveUrls envUrls cfg.icsUrls
  let configured := decide (0 < ics_urls.length)
  let range := get_fetch_range local_tz todayDays
  match fetchAll fetch range.1 range.2 local_tz ics_urls with
  | .error e => .error e
  | .ok all_events =>
    .ok
      { lastUpdated := local_tz.nowIn nowUtc
        timezone := tz_name
        ownerName := cfg.ownerName.getD "Nikki"
        weeklyProjectHours := cfg.weeklyProjectHours.getD 20
        workdayStart := cfg.workdayStart.getD 8
        workdayEnd := cfg.workdayEnd.getD 19
        configured := configured
        events := all_events }

/-! ### Helper lemmas -/

/-- Filtering after mapping is mapping after filtering the composed predicate. -/
theorem filter_map_comm (f : String → String) (p : String → Bool) :
    ∀ l : List String, (l.map f).filter p = (l.filter (fun u => p (f u))).map f := by
  intro l
  induction l with
  | nil => rfl
  | cons a l ih =>
    simp only [List.map_cons, List.filter_cons]
    by_cases h : p (f a) <;> simp [h, ih]

/-- Every interval the per-component loop body emits carries summary "Busy". -/
theorem summary_of_processComponent {tz : Tz} {rs re : Aware} {c : Component}
    {b : BusyInterval} (h : processComponent tz rs re c = .emit b) :
    b.summary = "Busy" := by
  rcases hev : c.isEvent with _ | _
  · simp [processComponent, hev] at h
  rcases hs : c.dtstart with _ | rawS
  · simp [processComponent, hev, hs] at h
  by_cases h2 : transpMatches c
  · simp [processComponent, hev, hs, h2] at h
  by_cases h3 : busyMatches c
  · simp [processComponent, hev, hs, h2, h3] at h
  rcases hn : normalizePair tz rawS (c.dtend.getD rawS) with _ | ⟨s, e⟩
  · simp [processComponent, hev, hs, h2, h3, hn] at h
  by_cases h4 : s.utc ≥ re.utc ∨ e.utc ≤ rs.utc
  · simp [processComponent, hev, hs, h2, h3, hn, h4] at h
  · simp [processComponent, hev, hs, h2, h3, hn, h4] at h
    rw [← h]

/-- Every interval the component loop collects carries summary "Busy". -/
theorem summary_of_collectEvents {tz : Tz} {rs re : Aware} :
    ∀ {comps : List Component} {evts : List BusyInterval},
      collectEvents tz rs re comps = Except.ok evts →
      ∀ b ∈ evts, b.summary = "Busy" := by
  intro comps
  induction comps with
  | nil =>
    intro evts h b hb
    cases h
    cases hb
  | cons c cs ih =>
    intro evts h b hb
    rw [collectEvents] at h
    rcases hp : processComponent tz rs re c with _ | b' | _
    · rw [hp] at h
      exact ih h b hb
    · rw [hp] at h
      rcases hr : collectEvents tz rs re cs with e | rest
      · rw [hr] at h
        exact Except.noConfusion h
      · rw [hr] at h
        cases h
        cases hb with
        | head => exact summary_of_processComponent hp
        | tail _ hmem => exact ih hr b hmem
    · rw [hp] at h
      exact Except.noConfusion h

/-- Every interval the feed loop accumulates carries summary "Busy". -/
theorem summary_of_fetchAll {fetch : String → Except String (List Component)}
    {rs re : Aware} {tz : Tz} :
    ∀ {urls : List String} {evts : List BusyInterval},
      fetchAll fetch rs re tz urls = Except.ok evts →
      ∀ b ∈ evts, b.summary = "Busy" := by
  intro urls
  induction urls with
  | nil =>
    intro evts h b hb
    cases h
    cases hb
  | cons url rest ih =>
    intro evts h b hb
    rw [fetchAll] at h
    rcases hfu : fetch url with exc | comps
    · rw [hfu] at h
      simp only [parse_ics_url] at h
      rcases hr : fetchAll fetch rs re tz rest with e | more
      · rw [hr] at h
        exact Except.noConfusion h
      · rw [hr] at h
        cases h
        rw [List.nil_append] at hb
        exact ih hr b hb
    · rw [hfu] at h
      simp only [parse_ics_url] at h
      rcases hc : collectEvents tz rs re comps with e | evts1
      · rw [hc] at h
        exact Except.noConfusion h
      · rw [hc] at h
        rcases hr : fetchAll fetch rs re tz rest with e | more
        · rw [hr] at h
          exact Except.noConfusion h
        · rw [hr] at h
          cases h
          rcases List.mem_append.mp hb with hmem | hmem
          · exact summary_of_collectEvents hc b hmem
          · exact ih hr b hmem

/-- Normalising the same raw value as start and end yields equal instants. -/
theorem normalizePair_same {tz : Tz} {r : RawTime} {s e : Aware}
    (h : normalizePair tz r r = some (s, e)) : s = e := by
  cases r with
  | dateOnly y m d =>
    simp only [normalizePair, RawTime.ymd] at h
    cases h
    rfl
  | dt y m d minute tzo =>
    cases tzo <;> (simp only [normalizePair] at h; cases h; rfl)

/-! ### Claims -/

/-- C2: the fetch window, computed once per run and shared by every feed,
has rangeStart equal to local midnight (in the configured timezone) of the
Monday of the current calendar week — the unique Monday `m` with
`m ≤ today < m + 7` — and rangeEnd equal to rangeStart plus exactly 35 days
(same offset, wall clock and absolute time alike). The final conjunct shows
`main` computes the window once and evaluates every feed against it. -/
theorem c2_fetch_window (tz : Tz) (t : Int) :
    (get_fetch_range tz t).1 = tz.localize (mondayOf t * 1440) ∧
    pyWeekday (mondayOf t) = 0 ∧
    mondayOf t ≤ t ∧ t < mondayOf t + 7 ∧
    (get_fetch_range tz t).1.wall % 1440 = 0 ∧
    (get_fetch_range tz t).2.wall = (get_fetch_range tz t).1.wall + 35 * 1440 ∧
    (get_fetch_range tz t).2.offset = (get_fetch_range tz t).1.offset ∧
    (get_fetch_range tz t).2.utc = (get_fetch_range tz t).1.utc + 35 * 1440 ∧
    (∀ (cfg : Config) (env : String)
        (fetch : String → Except String (List Component)) (n : Int),
      (runMain cfg env fetch t n).map ScheduleOutput.events =
        fetchAll fetch (get_fetch_range (resolveTz cfg.timezone).2.1 t).1
          (get_fetch_range (resolveTz cfg.timezone).2.1 t).2
          (resolveTz cfg.timezone).2.1 (resolveUrls env cfg.icsUrls)) := by
  refine ⟨rfl, ?_, ?_, ?_, ?_, rfl, rfl, ?_, ?_⟩
  · unfold mondayOf pyWeekday
    omega
  · unfold mondayOf pyWeekday
    omega
  · unfold mondayOf pyWeekday
    omega
  · show mondayOf t * 1440 % 1440 = 0
    omega
  · show (mondayOf t * 1440 + 35 * 1440) - tz.offsetOfLocal (mondayOf t * 1440)
        = (mondayOf t * 1440 - tz.offsetOfLocal (mondayOf t * 1440)) + 35 * 1440
    omega
  · intro cfg env fetch n
    simp only [runMain]
    rcases hq : fetchAll fetch
        (get_fetch_range (resolveTz cfg.timezone).2.1 t).1
        (get_fetch_range (resolveTz cfg.timezone).2.1 t).2
        (resolveTz cfg.timezone).2.1 (resolveUrls env cfg.icsUrls) with e | l <;>
      rfl

/-- The feed-list resolution exactly as the spec's words state it, for
comparison with `resolveUrls`: override branch with entries trimmed and empty
entries dropped; config branch (as amended) with empty entries and the
placeholder sentinel excluded. -/
def specResolvedFeeds (envUrls : String) (cfgUrls : Option (List String)) :
    List String :=
  if pyStrip envUrls ≠ "" then
    ((pySplitComma envUrls).map pyStrip).filter (fun u => u ≠ "")
  else
    (cfgUrls.getD []).filter (fun u => u ≠ "" && u ≠ "YOUR_ICS_URL_HERE")

/-- The config-file fallback branch as claim C6 states it before amendment:
only the placeholder sentinel is excluded. -/
def claimedConfigFallback (cfgUrls : List String) : List String :=
  cfgUrls.filter (fun u => u ≠ "YOUR_ICS_URL_HERE")

/-- C6 counterexample: with no environment override and a config list
containing an empty-string entry, the code also drops the empty entry, so the
resolved list is not "the config list with only the placeholder excluded". -/
theorem c6_config_list_counterexample :
    resolveUrls "" (some ["", "http://c"]) = ["http://c"] ∧
    claimedConfigFallback ["", "http://c"] = ["", "http://c"] ∧
    resolveUrls "" (some ["", "http://c"]) ≠
      claimedConfigFallback ["", "http://c"] := by
  refine ⟨by decide, by decide, by decide⟩

/-- C6 (amended): when `ICS_URLS` is non-empty after trimming, the resolved
feed list is exactly its comma-separated entries (each trimmed, empty entries
dropped), entirely replacing the config list; otherwise it is the config
list with empty entries and the placeholder sentinel "YOUR_ICS_URL_HERE"
excluded. -/
theorem c6_feed_list_resolution (envUrls : String)
    (cfgUrls : Option (List String)) :
    resolveUrls envUrls cfgUrls = specResolvedFeeds envUrls cfgUrls := by
  unfold resolveUrls specResolvedFeeds
  by_cases h : pyStrip envUrls ≠ ""
  · rw [if_pos h, if_pos h, filter_map_comm]
  · rw [if_neg h, if_neg h]
    rfl

/-- C8: all-day (date-only) events normalize to midnight-to-midnight local
instants in the configured timezone — concretely, a date-only event spanning
2024-06-10 in "America/New_York" yields start 2024-06-10T00:00 at offset
−240 minutes (−04:00) and end 2024-06-11T00:00 at the same offset; naive
timestamps get the configured timezone attached (`localize` then
`astimezone`), and aware timestamps keep their own offset and are converted
into the configured timezone with `astimezone`. -/
theorem c8_allday_normalization :
    (∀ (tz : Tz) (y m d : Int) (rawEnd : RawTime),
      normalizePair tz (.dateOnly y m d) rawEnd =
        some (tz.localize (midnightWall y m d),
          tz.localize (midnightWall rawEnd.ymd.1 rawEnd.ymd.2.1 rawEnd.ymd.2.2))) ∧
    (normalizePair nyTz (.dateOnly 2024 6 10) (.dateOnly 2024 6 11) =
      some (⟨19884 * 1440, -240⟩, ⟨19885 * 1440, -240⟩)) ∧
    dateToDays 2024 6 10 = 19884 ∧
    (∀ (tz : Tz) (y m d minute y2 m2 d2 minute2 : Int) (tzo2 : Option Int),
      (normalizePair tz (.dt y m d minute none) (.dt y2 m2 d2 minute2 tzo2)).map
          Prod.fst =
        some (tz.astimezone
          (tz.localize (RawTime.wallMinutes (.dt y m d minute none))))) ∧
    (∀ (tz : Tz) (y m d minute o y2 m2 d2 minute2 : Int) (tzo2 : Option Int),
      (normalizePair tz (.dt y m d minute (some o)) (.dt y2 m2 d2 minute2 tzo2)).map
          Prod.fst =
        some (tz.astimezone ⟨RawTime.wallMinutes (.dt y m d minute (some o)), o⟩)) ∧
    (∀ (tz : Tz) (y m d minute y2 m2 d2 minute2 : Int) (tzo : Option Int),
      (normalizePair tz (.dt y m d minute tzo) (.dt y2 m2 d2 minute2 none)).map
          Prod.snd =
        some (tz.astimezone
          (tz.localize (RawTime.wallMinutes (.dt y2 m2 d2 minute2 none))))) ∧
    (∀ (tz : Tz) (y m d minute y2 m2 d2 minute2 o2 : Int) (tzo : Option Int),
      (normalizePair tz (.dt y m d minute tzo) (.dt y2 m2 d2 minute2 (some o2))).map
          Prod.snd =
        some (tz.astimezone ⟨RawTime.wallMinutes (.dt y2 m2 d2 minute2 (some o2)), o2⟩)) := by
  refine ⟨?_, by decide, by decide, ?_, ?_, ?_, ?_⟩
  · intro tz y m d rawEnd
    rfl
  · intro tz y m d minute y2 m2 d2 minute2 tzo2
    cases tzo2 <;> rfl
  · intro tz y m d minute o y2 m2 d2 minute2 tzo2
    cases tzo2 <;> rfl
  · intro tz y m d minute y2 m2 d2 minute2 tzo
    cases tzo <;> rfl
  · intro tz y m d minute y2 m2 d2 minute2 o2 tzo
    cases tzo <;> rfl

deriving instance DecidableEq for Except

/-! ### Concrete fixtures used by witnesses and counterexamples -/

/-- A fetch oracle on which every URL fails. -/
def noFetch : String → Except String (List Component) := fun _ => .error "boom"

/-- A fetch oracle failing only for the URL "bad". -/
def oneBadFetch : String → Except String (List Component) :=
  fun u => if u = "bad" then .error "boom" else .ok []

/-- An opaque VEVENT at naive 1970-01-02 10:00 with no DTEND. -/
def compIn : Component := ⟨true, some (.dt 1970 1 2 600 none), none, none, none⟩

/-- A VEVENT with no DTSTART. -/
def compNoStart : Component := ⟨true, none, none, none, none⟩

/-- A VEVENT marked transparent. -/
def compTransp : Component :=
  ⟨true, some (.dt 2024 6 10 0 none), none, some "Transparent", none⟩

/-- A fetch oracle answering every URL with the single event `compIn`. -/
def goodFetch : String → Except String (List Component) := fun _ => .ok [compIn]

/-- Config naming an unknown timezone. -/
def cfgBadTz : Config := ⟨some "Not/A_Zone", none, none, none, none, some []⟩

/-- Config with no timezone key. -/
def cfgNoTz : Config := ⟨none, none, none, none, none, none⟩

/-- Config with the UTC timezone and one feed URL. -/
def cfgUtcFeed : Config := ⟨some "UTC", none, none, none, none, some ["u"]⟩

/-- The interval produced from `compIn` under UTC. -/
def busyB : BusyInterval := ⟨⟨2040, 0⟩, ⟨2040, 0⟩, "Busy"⟩

/-- The output of a run with `cfgBadTz`, no override and no reachable feed. -/
def outBadTz : ScheduleOutput :=
  ⟨⟨0, 0⟩, "Not/A_Zone", "Nikki", 20, 8, 19, false, []⟩

/-- The output of a run with `cfgNoTz`, no override and no reachable feed. -/
def outNoTz : ScheduleOutput := ⟨⟨0, 0⟩, "UTC", "Nikki", 20, 8, 19, false, []⟩

/-- The output of a run with `cfgUtcFeed` and `goodFetch` on day 1. -/
def outGood : ScheduleOutput := ⟨⟨0, 0⟩, "UTC", "Nikki", 20, 8, 19, true, [busyB]⟩

/-! ### Remaining claims -/

/-- C3: for every VEVENT that reaches the range filter (start present, not
transparent, not marked free, normalisation succeeded with instants (s, e)),
a BusyInterval is emitted iff s < rangeEnd and e > rangeStart (comparison of
absolute instants, half-open overlap test); otherwise the component is
skipped. In particular an event straddling rangeStart is retained, while one
entirely before rangeStart or entirely at/after rangeEnd is dropped. -/
theorem c3_overlap_filter (tz : Tz) (rs re : Aware) (c : Component)
    (rawS : RawTime) (s e : Aware)
    (hev : c.isEvent = true) (hst : c.dtstart = some rawS)
    (ht : transpMatches c = false) (hb : busyMatches c = false)
    (hn : normalizePair tz rawS (c.dtend.getD rawS) = some (s, e)) :
    (processComponent tz rs re c = .emit ⟨s, e, "Busy"⟩ ↔
      (s.utc < re.utc ∧ rs.utc < e.utc)) ∧
    (¬(s.utc < re.utc ∧ rs.utc < e.utc) →
      processComponent tz rs re c = .skip) := by
  by_cases hc : s.utc ≥ re.utc ∨ e.utc ≤ rs.utc
  · have hpc : processComponent tz rs re c = .skip := by
      simp [processComponent, hev, hst, ht, hb, hn, hc]
    refine ⟨?_, fun _ => hpc⟩
    rw [hpc]
    constructor
    · intro h
      exact StepRes.noConfusion h
    · intro hov
      exact absurd hov (by omega)
  · have hpc : processComponent tz rs re c = .emit ⟨s, e, "Busy"⟩ := by
      simp [processComponent, hev, hst, ht, hb, hn, hc]
    refine ⟨?_, ?_⟩
    · rw [hpc]
      exact ⟨fun _ => by omega, fun _ => rfl⟩
    · intro hno
      exact absurd (by omega : s.utc < re.utc ∧ rs.utc < e.utc) hno

/-- C3 witness: a concrete in-range event is emitted. -/
theorem c3_overlap_filter_witness :
    (processComponent utcTz ⟨0, 0⟩ ⟨50400, 0⟩ compIn =
        .emit ⟨⟨2040, 0⟩, ⟨2040, 0⟩, "Busy"⟩ ↔
      (Aware.utc ⟨2040, 0⟩ < Aware.utc ⟨50400, 0⟩ ∧
        Aware.utc ⟨0, 0⟩ < Aware.utc ⟨2040, 0⟩)) ∧
    (¬(Aware.utc ⟨2040, 0⟩ < Aware.utc ⟨50400, 0⟩ ∧
        Aware.utc ⟨0, 0⟩ < Aware.utc ⟨2040, 0⟩) →
      processComponent utcTz ⟨0, 0⟩ ⟨50400, 0⟩ compIn = .skip) :=
  c3_overlap_filter utcTz ⟨0, 0⟩ ⟨50400, 0⟩ compIn (.dt 1970 1 2 600 none)
    ⟨2040, 0⟩ ⟨2040, 0⟩ rfl rfl rfl rfl (by decide)

/-- C4: when fetching or decoding a feed fails, the per-feed parse returns
the empty sequence together with one stderr line holding the URL truncated
to 70 characters, and the feed loop's result on the remaining feeds is
unaffected: the failing feed is simply dropped from the concatenation. -/
theorem c4_feed_failure_isolated (url exc : String) (rs re : Aware) (tz : Tz)
    (fetch : String → Except String (List Component))
    (hf : fetch url = .error exc) (rest : List String) :
    parse_ics_url url (fetch url) rs re tz =
      (.ok [], ["  ⚠️  Could not fetch " ++ url.take 70 ++ ": " ++ exc]) ∧
    fetchAll fetch rs re tz (url :: rest) = fetchAll fetch rs re tz rest := by
  constructor
  · rw [hf]
    rfl
  · rw [fetchAll, hf]
    rcases hr : fetchAll fetch rs re tz rest with e | more <;>
      simp [parse_ics_url]

/-- C4 witness: a failing feed leaves the other feed's result unchanged. -/
theorem c4_feed_failure_isolated_witness :
    parse_ics_url "bad" (oneBadFetch "bad") ⟨0, 0⟩ ⟨1, 0⟩ utcTz =
      (.ok [], ["  ⚠️  Could not fetch " ++ "bad".take 70 ++ ": " ++ "boom"]) ∧
    fetchAll oneBadFetch ⟨0, 0⟩ ⟨1, 0⟩ utcTz ["bad", "good"] =
      fetchAll oneBadFetch ⟨0, 0⟩ ⟨1, 0⟩ utcTz ["good"] :=
  c4_feed_failure_isolated "bad" "boom" ⟨0, 0⟩ ⟨1, 0⟩ utcTz oneBadFetch rfl
    ["good"]

/-- C5: every BusyInterval in the `events` list of a completed run has
summary exactly "Busy" — the original event title is never present, for
every input feed. -/
theorem c5_summary_always_busy (cfg : Config) (env : String)
    (fetch : String → Except String (List Component)) (t n : Int)
    (out : ScheduleOutput) (h : runMain cfg env fetch t n = .ok out)
    (b : BusyInterval) (hb : b ∈ out.events) : b.summary = "Busy" := by
  simp only [runMain] at h
  rcases hq : fetchAll fetch (get_fetch_range (resolveTz cfg.timezone).2.1 t).1
      (get_fetch_range (resolveTz cfg.timezone).2.1 t).2
      (resolveTz cfg.timezone).2.1 (resolveUrls env cfg.icsUrls) with e | l
  · rw [hq] at h
    exact Except.noConfusion h
  · rw [hq] at h
    cases h
    exact summary_of_fetchAll hq b hb

/-- C5 witness: the interval of a concrete successful run is labelled Busy. -/
theorem c5_summary_always_busy_witness : busyB.summary = "Busy" :=
  c5_summary_always_busy cfgUtcFeed "" goodFetch 1 0 outGood (by decide) busyB
    (by decide)

/-- C7: any VEVENT whose TRANSP uppercases to "TRANSPARENT" or whose
X-MICROSOFT-CDO-BUSYSTATUS uppercases to "FREE" is skipped, regardless of
its other fields — no BusyInterval is emitted for it. -/
theorem c7_transparent_or_free_skipped (tz : Tz) (rs re : Aware)
    (c : Component)
    (h : (∃ t, c.transp = some t ∧ pyUpper t = "TRANSPARENT") ∨
         (∃ t, c.busystatus = some t ∧ pyUpper t = "FREE")) :
    processComponent tz rs re c = .skip := by
  rcases hev : c.isEvent with _ | _
  · simp [processComponent, hev]
  rcases hs : c.dtstart with _ | rawS
  · simp [processComponent, hev, hs]
  rcases h with ⟨t, ht, hu⟩ | ⟨t, ht, hu⟩
  · have hne : t ≠ "" := by
      intro he
      subst he
      exact absurd hu (by decide)
    have hm : transpMatches c = true := by
      simp [transpMatches, ht, pyTruthy, hne, hu]
    simp [processComponent, hev, hs, hm]
  · by_cases hm : transpMatches c
    · simp [processComponent, hev, hs, hm]
    · have hne : t ≠ "" := by
        intro he
        subst he
        exact absurd hu (by decide)
      have hbm : busyMatches c = true := by
        simp [busyMatches, ht, pyTruthy, hne, hu]
      simp [processComponent, hev, hs, hm, hbm]

/-- C7 witness: a concrete transparent event is skipped. -/
theorem c7_transparent_or_free_skipped_witness :
    processComponent utcTz ⟨0, 0⟩ ⟨1, 0⟩ compTransp = .skip :=
  c7_transparent_or_free_skipped utcTz ⟨0, 0⟩ ⟨1, 0⟩ compTransp
    (Or.inl ⟨"Transparent", rfl, by decide⟩)

/-- C9: a component with no DTSTART is skipped; a component with a DTSTART
but no DTEND reuses the start as the end, so any interval it emits has
start = end (zero duration). -/
theorem c9_missing_start_or_end (tz : Tz) (rs re : Aware) (c : Component) :
    (c.dtstart = none → processComponent tz rs re c = .skip) ∧
    (∀ (rawS : RawTime) (b : BusyInterval), c.dtstart = some rawS →
      c.dtend = none → processComponent tz rs re c = .emit b →
      b.start = b.«end») := by
  constructor
  · intro hs
    rcases hev : c.isEvent with _ | _
    · simp [processComponent, hev]
    · simp [processComponent, hev, hs]
  · intro rawS b hs hd h
    rcases hev : c.isEvent with _ | _
    · simp [processComponent, hev] at h
    by_cases h2 : transpMatches c
    · simp [processComponent, hev, hs, h2] at h
    by_cases h3 : busyMatches c
    · simp [processComponent, hev, hs, h2, h3] at h
    rcases hn : normalizePair tz rawS rawS with _ | ⟨s, e⟩
    · simp [processComponent, hev, hs, hd, h2, h3, hn] at h
    have hse := normalizePair_same hn
    by_cases h4 : s.utc ≥ re.utc ∨ e.utc ≤ rs.utc
    · simp [processComponent, hev, hs, hd, h2, h3, hn, h4] at h
    · simp [processComponent, hev, hs, hd, h2, h3, hn, h4] at h
      rw [← h]
      exact hse

/-- C9 witness: a start-less component is skipped, and the zero-duration
interval from an end-less component has equal endpoints. -/
theorem c9_missing_start_or_end_witness :
    processComponent utcTz ⟨0, 0⟩ ⟨1, 0⟩ compNoStart = .skip ∧
    busyB.start = busyB.«end» :=
  ⟨(c9_missing_start_or_end utcTz ⟨0, 0⟩ ⟨1, 0⟩ compNoStart).1 rfl,
   (c9_missing_start_or_end utcTz ⟨0, 0⟩ ⟨50400, 0⟩ compIn).2
     (.dt 1970 1 2 600 none) busyB rfl rfl (by decide)⟩

/-- C10: with no `timezone` key, the name silently defaults to "UTC": no
warning is printed, the output `timezone` field is "UTC", and all time
computations use the UTC zone object. -/
theorem c10_default_timezone_utc (cfg : Config) (hc : cfg.timezone = none)
    (env : String) (fetch : String → Except String (List Component))
    (t n : Int) :
    resolveTz cfg.timezone = ("UTC", utcTz, false) ∧
    (∀ out : ScheduleOutput, runMain cfg env fetch t n = .ok out →
      out.timezone = "UTC") ∧
    (runMain cfg env fetch t n).map ScheduleOutput.events =
      fetchAll fetch (get_fetch_range utcTz t).1 (get_fetch_range utcTz t).2
        utcTz (resolveUrls env cfg.icsUrls) := by
  have h1 : resolveTz cfg.timezone = ("UTC", utcTz, false) := by
    rw [hc]
    rfl
  refine ⟨h1, ?_, ?_⟩
  · intro out h
    simp only [runMain, h1] at h
    rcases hq : fetchAll fetch (get_fetch_range utcTz t).1
        (get_fetch_range utcTz t).2 utcTz (resolveUrls env cfg.icsUrls)
      with e | l
    · rw [hq] at h
      exact Except.noConfusion h
    · rw [hq] at h
      cases h
      rfl
  · simp only [runMain, h1]
    rcases hq : fetchAll fetch (get_fetch_range utcTz t).1
        (get_fetch_range utcTz t).2 utcTz (resolveUrls env cfg.icsUrls)
      with e | l <;> rfl

/-- C10 witness: a concrete run with no timezone key. -/
theorem c10_default_timezone_utc_witness :
    resolveTz cfgNoTz.timezone = ("UTC", utcTz, false) ∧
    outNoTz.timezone = "UTC" ∧
    (runMain cfgNoTz "" noFetch 0 0).map ScheduleOutput.events =
      fetchAll noFetch (get_fetch_range utcTz 0).1 (get_fetch_range utcTz 0).2
        utcTz (resolveUrls "" cfgNoTz.icsUrls) :=
  ⟨(c10_default_timezone_utc cfgNoTz rfl "" noFetch 0 0).1,
   (c10_default_timezone_utc cfgNoTz rfl "" noFetch 0 0).2.1 outNoTz
     (by decide),
   (c10_default_timezone_utc cfgNoTz rfl "" noFetch 0 0).2.2⟩

/-- C1 counterexample: with the unknown timezone name "Not/A_Zone" the run
completes and a warning is emitted, but the written `timezone` field is the
original unrecognized name, not "UTC" — the claim's "reflects the UTC
fallback" conjunct is false. -/
theorem c1_timezone_field_counterexample :
    pytzTable "Not/A_Zone" = none ∧
    (resolveTz (some "Not/A_Zone")).2.2 = true ∧
    runMain cfgBadTz "" noFetch 0 0 = .ok outBadTz ∧
    outBadTz.timezone ≠ "UTC" := by
  refine ⟨rfl, rfl, by decide, by decide⟩

/-- C1 (amended): if the configured timezone name is unrecognized, the run
does not abort: a warning is emitted and UTC is substituted for all time
computations, but the `timezone` field of the written schedule.json retains
the original unrecognized name rather than reflecting the UTC fallback. -/
theorem c1_unknown_timezone_behavior (name : String)
    (hp : pytzTable name = none) (cfg : Config)
    (hc : cfg.timezone = some name) (env : String)
    (fetch : String → Except String (List Component)) (t n : Int) :
    resolveTz cfg.timezone = (name, utcTz, true) ∧
    (∀ out : ScheduleOutput, runMain cfg env fetch t n = .ok out →
      out.timezone = name) ∧
    (runMain cfg env fetch t n).map ScheduleOutput.events =
      fetchAll fetch (get_fetch_range utcTz t).1 (get_fetch_range utcTz t).2
        utcTz (resolveUrls env cfg.icsUrls) := by
  have h1 : resolveTz cfg.timezone = (name, utcTz, true) := by
    rw [hc]
    simp [resolveTz, hp]
  refine ⟨h1, ?_, ?_⟩
  · intro out h
    simp only [runMain, h1] at h
    rcases hq : fetchAll fetch (get_fetch_range utcTz t).1
        (get_fetch_range utcTz t).2 utcTz (resolveUrls env cfg.icsUrls)
      with e | l
    · rw [hq] at h
      exact Except.noConfusion h
    · rw [hq] at h
      cases h
      rfl
  · simp only [runMain, h1]
    rcases hq : fetchAll fetch (get_fetch_range utcTz t).1
        (get_fetch_range utcTz t).2 utcTz (resolveUrls env cfg.icsUrls)
      with e | l <;> rfl

/-- C1 witness: the concrete unknown-timezone run. -/
theorem c1_unknown_timezone_behavior_witness :
    resolveTz cfgBadTz.timezone = ("Not/A_Zone", utcTz, true) ∧
    outBadTz.timezone = "Not/A_Zone" ∧
    (runMain cfgBadTz "" noFetch 0 0).map ScheduleOutput.events =
      fetchAll noFetch (get_fetch_range utcTz 0).1 (get_fetch_range utcTz 0).2
        utcTz (resolveUrls "" cfgBadTz.icsUrls) :=
  ⟨(c1_unknown_timezone_behavior "Not/A_Zone" rfl cfgBadTz rfl "" noFetch 0 0).1,
   (c1_unknown_timezone_behavior "Not/A_Zone" rfl cfgBadTz rfl "" noFetch 0 0).2.1
     outBadTz (by decide),
   (c1_unknown_timezone_behavior "Not/A_Zone" rfl cfgBadTz rfl "" noFetch 0 0).2.2⟩
